import Mathlib

/-!
Shallow embedding of the gcd command-line program (`src/main.rs`).

The program parses each command-line argument (after the program name) as a
`u64` via `u64::from_str`, aborting on the first parse failure; with no
arguments it prints a usage message and exits with status 1; otherwise it
folds the pairwise `gcd` function left-to-right over the parsed numbers and
prints the list together with the final accumulator.

`u64` values are embedded as `Nat`: every operation the program performs
(comparison, remainder, swap) maps a value below `2 ^ 64` to a value below
`2 ^ 64`, so no overflow is possible and the `Nat` semantics coincide with
the Rust `u64` semantics on parsed inputs.  Aborts (the `assert!` in `gcd`,
a division by zero) are embedded as `none` / dedicated result constructors,
and the panic message of `.expect("error parsing argument")` — the fixed
`expect` text plus the `Debug` form of the `ParseIntError`, which never
contains the offending argument — is modelled verbatim.
-/

namespace RustGcd

/-- The `while m != 0` loop of `gcd` in `src/main.rs`:
if `m < n` the operands are swapped, then `m` is replaced by `m % n`.
The state after one iteration starting from `(n, m)` is `(m, n % m)` when
`m < n` and `(n, m % n)` otherwise.  `none` models the Rust panic on
`m % 0` (reachable only when the loop is entered with `n = 0`, which the
assertion in `gcd` rules out). -/
def gcdLoop (n m : Nat) : Option Nat :=
  if hm : m = 0 then some n
  else if hn : n = 0 then none
  else if hlt : m < n then gcdLoop m (n % m)
  else gcdLoop n (m % n)
termination_by m
decreasing_by
· exact Nat.mod_lt n (Nat.pos_of_ne_zero hm)
· exact Nat.lt_of_lt_of_le (Nat.mod_lt m (Nat.pos_of_ne_zero hn)) (Nat.le_of_not_lt hlt)

/-- `fn gcd(mut n: u64, mut m: u64) -> u64` from `src/main.rs`:
`assert!(n != 0 && m != 0)` followed by the Euclidean loop.
`none` models the panic of a failed assertion. -/
def gcd (n m : Nat) : Option Nat :=
  if n ≠ 0 ∧ m ≠ 0 then gcdLoop n m else none

/-- The error kinds of `core::num::ParseIntError` that `u64::from_str` can
produce in this program: `Empty` for an empty input string, `InvalidDigit`
for a character that is not a base-10 digit (or a lone sign), `PosOverflow`
for a value exceeding the unsigned 64-bit range. -/
inductive ParseIntErrorKind where
  | empty : ParseIntErrorKind
  | invalidDigit : ParseIntErrorKind
  | posOverflow : ParseIntErrorKind
deriving DecidableEq, Repr

/-- The `Debug` rendering of each `IntErrorKind` variant. -/
def kindDebug : ParseIntErrorKind → String
  | ParseIntErrorKind.empty => "Empty"
  | ParseIntErrorKind.invalidDigit => "InvalidDigit"
  | ParseIntErrorKind.posOverflow => "PosOverflow"

/-- The panic message produced by `.expect("error parsing argument")` on a
parse failure: the fixed `expect` text, a colon, and the `Debug` form of
the `ParseIntError`.  Note that the offending argument string appears
nowhere in it. -/
def panicMessage (k : ParseIntErrorKind) : String :=
  "error parsing argument: ParseIntError \x7b kind: " ++ kindDebug k ++ " \x7d"

/-- The sign handling of `from_str_radix` for an unsigned target type: a
single leading `+` is dropped, any other first character (including `-`,
which is only allowed for signed types) is kept and left for the digit
check to reject. -/
def stripPlus : List Char → List Char
  | [] => []
  | c :: rest => if c = '+' then rest else c :: rest

/-- The per-character loop of `from_str_radix`: each character must be a
base-10 digit (else `InvalidDigit`), and the checked multiply-and-add must
stay below `2 ^ 64` (else `PosOverflow`), scanning left to right. -/
def parseLoop : Nat → List Char → Except ParseIntErrorKind Nat
  | acc, [] => Except.ok acc
  | acc, c :: rest =>
    if c.isDigit then
      if acc * 10 + (c.toNat - 48) < 2 ^ 64 then
        parseLoop (acc * 10 + (c.toNat - 48)) rest
      else Except.error ParseIntErrorKind.posOverflow
    else Except.error ParseIntErrorKind.invalidDigit

/-- `u64::from_str`: an empty string is `Empty`; a lone sign is
`InvalidDigit`; otherwise an optional single leading `+` is dropped and the
remaining characters must be base-10 digits whose value fits in 64 bits.
Whitespace and a `-` sign (not allowed for unsigned types) are rejected by
the digit check. -/
def parseU64 (s : String) : Except ParseIntErrorKind Nat :=
  if s.data = [] then Except.error ParseIntErrorKind.empty
  else if stripPlus s.data = [] then Except.error ParseIntErrorKind.invalidDigit
  else parseLoop 0 (stripPlus s.data)

/-- The argument-parsing loop of `main`: each argument is parsed with
`u64::from_str` and pushed onto the vector; the first failure aborts the
whole run (`expect`), carrying the error of the first failing argument. -/
def parseArgs : List String → Except ParseIntErrorKind (List Nat)
  | [] => Except.ok []
  | a :: rest =>
    match parseU64 a with
    | Except.error k => Except.error k
    | Except.ok v =>
      match parseArgs rest with
      | Except.error k => Except.error k
      | Except.ok vs => Except.ok (v :: vs)

/-- The reduction loop of `main`: `d` starts as `numbers[0]` and is updated
to `gcd(d, m)` for each subsequent element `m`; `none` propagates a panic
from `gcd`. -/
def foldGcd (d : Nat) : List Nat → Option Nat
  | [] => some d
  | m :: rest =>
    match gcd d m with
    | none => none
    | some d' => foldGcd d' rest

/-- Observable outcome of one run of the program.
`usageError` is the usage message on standard error plus `exit(1)`;
`parseError msg` is the `expect` panic whose message `msg` is the fixed
text `error parsing argument` followed by the `Debug` form of the
`ParseIntError` — the offending argument string is not part of it
(non-zero exit, no output line); `assertFailure` is the abort from the
`assert!` in `gcd`; `output ns d` is the single standard-output line
printing the parsed list `ns` and the final accumulator `d`. -/
inductive MainResult where
  | usageError : MainResult
  | parseError : String → MainResult
  | assertFailure : MainResult
  | output : List Nat → Nat → MainResult
deriving DecidableEq, Repr

/-- `fn main()` from `src/main.rs`, as a function of the argument list after
`std::env::args().skip(1)`: parse all arguments (the first failure panics
with the `expect` message); if the list is empty print usage and exit 1;
otherwise fold `gcd` over the list and print the result. -/
def main (args : List String) : MainResult :=
  match parseArgs args with
  | Except.error k => MainResult.parseError (panicMessage k)
  | Except.ok numbers =>
    match numbers with
    | [] => MainResult.usageError
    | d :: rest =>
      match foldGcd d rest with
      | none => MainResult.assertFailure
      | some g => MainResult.output numbers g

/-- Mathematical greatest common divisor of a list of naturals. -/
def listGcd (ns : List Nat) : Nat := ns.foldr Nat.gcd 0

/-- The loop computes `Nat.gcd` whenever it starts with a non-zero first
operand. -/
theorem gcdLoop_eq_gcd (m : Nat) : ∀ n : Nat, n ≠ 0 → gcdLoop n m = some (Nat.gcd n m) := by
  induction m using Nat.strong_induction_on with
  | _ m ih =>
    intro n hn
    unfold gcdLoop
    by_cases hm : m = 0
    · subst hm
      simp [Nat.gcd_zero_right]
    · rw [dif_neg hm, dif_neg hn]
      by_cases hlt : m < n
      · rw [dif_pos hlt, ih (n % m) (Nat.mod_lt n (Nat.pos_of_ne_zero hm)) m hm]
        rw [Nat.gcd_comm m (n % m), ← Nat.gcd_rec m n, Nat.gcd_comm m n]
      · rw [dif_neg hlt,
          ih (m % n) (Nat.lt_of_lt_of_le (Nat.mod_lt m (Nat.pos_of_ne_zero hn))
            (Nat.le_of_not_lt hlt)) n hn]
        rw [Nat.gcd_comm n (m % n), ← Nat.gcd_rec n m]

/-- With both operands non-zero, the assertion passes and `gcd` returns
`Nat.gcd`. -/
theorem gcd_some (n m : Nat) (hn : n ≠ 0) (hm : m ≠ 0) : gcd n m = some (Nat.gcd n m) := by
  rw [gcd, if_pos ⟨hn, hm⟩, gcdLoop_eq_gcd m n hn]

/-- With a zero operand, the assertion fires. -/
theorem gcd_none (n m : Nat) (h : n = 0 ∨ m = 0) : gcd n m = none := by
  rw [gcd, if_neg]
  rcases h with h | h <;> simp [h]

/-- A successful reduction yields the gcd of the whole list. -/
theorem foldGcd_some (rest : List Nat) :
    ∀ d g : Nat, foldGcd d rest = some g → g = listGcd (d :: rest) := by
  induction rest with
  | nil =>
    intro d g h
    simp only [foldGcd, Option.some.injEq] at h
    simp [listGcd, ← h]
  | cons m rest ih =>
    intro d g h
    simp only [foldGcd] at h
    by_cases hdm : d ≠ 0 ∧ m ≠ 0
    · rw [gcd_some d m hdm.1 hdm.2] at h
      have := ih (Nat.gcd d m) g h
      simpa [listGcd, Nat.gcd_assoc] using this
    · rw [gcd_none d m (by rcases Decidable.not_and_iff_or_not.mp hdm with h | h <;>
        simp at h <;> simp [h])] at h
      exact absurd h (by simp)

/-- On an all-non-zero list the reduction never panics and returns the gcd
of the whole list. -/
theorem foldGcd_all_nonzero (rest : List Nat) :
    ∀ d : Nat, d ≠ 0 → (∀ x ∈ rest, x ≠ 0) → foldGcd d rest = some (listGcd (d :: rest)) := by
  induction rest with
  | nil =>
    intro d _ _
    simp [foldGcd, listGcd]
  | cons m rest ih =>
    intro d hd hall
    have hm : m ≠ 0 := hall m (by simp)
    rw [foldGcd, gcd_some d m hd hm]
    have hgd : Nat.gcd d m ≠ 0 := Nat.pos_iff_ne_zero.mp (Nat.gcd_pos_of_pos_left m
      (Nat.pos_of_ne_zero hd))
    show foldGcd (Nat.gcd d m) rest = some (listGcd (d :: m :: rest))
    rw [ih (Nat.gcd d m) hgd (fun x hx => hall x (by simp [hx]))]
    simp [listGcd, Nat.gcd_assoc]

/-- `listGcd` is invariant under permutation of the list. -/
theorem listGcd_perm {ns ms : List Nat} (h : List.Perm ns ms) : listGcd ns = listGcd ms := by
  induction h with
  | nil => rfl
  | cons x h ih => simp [listGcd] at ih ⊢; rw [ih]
  | swap x y l =>
    simp only [listGcd, List.foldr_cons]
    rw [← Nat.gcd_assoc, Nat.gcd_comm y x, Nat.gcd_assoc]
  | trans h₁ h₂ ih₁ ih₂ => exact ih₁.trans ih₂

/-- A zero among the elements fed to the reduction makes it panic. -/
theorem foldGcd_none_of_zero (rest : List Nat) :
    ∀ d : Nat, 0 ∈ rest ∨ (d = 0 ∧ rest ≠ []) → foldGcd d rest = none := by
  induction rest with
  | nil =>
    intro d h
    rcases h with h | ⟨_, h⟩
    · simp at h
    · simp at h
  | cons m rest ih =>
    intro d h
    by_cases hd : d = 0
    · rw [foldGcd, gcd_none d m (Or.inl hd)]
    · have h0 : (0 : Nat) ∈ m :: rest := by
        rcases h with h | ⟨hd', _⟩
        · exact h
        · exact absurd hd' hd
      by_cases hm : m = 0
      · rw [foldGcd, gcd_none d m (Or.inr hm)]
      · have h0' : (0 : Nat) ∈ rest := by
          rcases List.mem_cons.mp h0 with h' | h'
          · exact absurd h'.symm hm
          · exact h'
        rw [foldGcd, gcd_some d m hd hm]
        show foldGcd (Nat.gcd d m) rest = none
        exact ih (Nat.gcd d m) (Or.inl h0')

/-- A non-digit character anywhere in the character list makes the parse
loop fail: it can never return a value. -/
theorem parseLoop_not_ok (c : Char) (hcd : c.isDigit = false) :
    ∀ (cs : List Char), c ∈ cs → ∀ (acc v : Nat), parseLoop acc cs ≠ Except.ok v := by
  intro cs
  induction cs with
  | nil =>
    intro hc
    simp at hc
  | cons c0 rest ih =>
    intro hc acc v
    rw [parseLoop]
    by_cases h0 : c0.isDigit
    · rw [if_pos h0]
      have hc' : c ∈ rest := by
        rcases List.mem_cons.mp hc with h | h
        · rw [← h] at h0
          rw [hcd] at h0
          exact absurd h0 (by decide)
        · exact h
      by_cases hov : acc * 10 + (c0.toNat - 48) < 2 ^ 64
      · rw [if_pos hov]
        exact ih hc' _ v
      · rw [if_neg hov]
        simp
    · rw [if_neg h0]
      simp

/-- A character other than `+` survives the sign stripping. -/
theorem mem_stripPlus (c : Char) (cs : List Char) (hc : c ∈ cs) (hne : c ≠ '+') :
    c ∈ stripPlus cs := by
  cases cs with
  | nil => simp at hc
  | cons c0 rest =>
    rw [stripPlus]
    by_cases h0 : c0 = '+'
    · rw [if_pos h0]
      rcases List.mem_cons.mp hc with h | h
      · rw [h0] at h
        exact absurd h hne
      · exact h
    · rw [if_neg h0]
      exact hc

/-- Parsing stops at the first argument that fails to parse and carries its
error; the arguments after it play no role. -/
theorem parseArgs_first_failure (a : String) (post : List String) (k : ParseIntErrorKind)
    (ha : parseU64 a = Except.error k) :
    ∀ pre : List String, (∀ b ∈ pre, ∃ v, parseU64 b = Except.ok v) →
      parseArgs (pre ++ a :: post) = Except.error k := by
  intro pre
  induction pre with
  | nil =>
    intro _
    rw [List.nil_append, parseArgs, ha]
  | cons b pre ih =>
    intro hpre
    obtain ⟨v, hv⟩ := hpre b (by simp)
    rw [List.cons_append, parseArgs, hv, ih (fun c hc => hpre c (by simp [hc]))]

/-- C1: for all non-zero unsigned 64-bit integers `a` and `b`, `gcd a b`
returns (rather than panics) the largest integer that evenly divides both
`a` and `b`, and the result is always at least 1. -/
theorem gcd_greatest_common_divisor (a b : Nat) (ha : a ≠ 0) (hb : b ≠ 0)
    (ha64 : a < 2 ^ 64) (hb64 : b < 2 ^ 64) :
    ∃ g : Nat, gcd a b = some g ∧ g ∣ a ∧ g ∣ b ∧ 1 ≤ g ∧
      ∀ c : Nat, c ∣ a → c ∣ b → c ≤ g := by
  have hpos : 0 < Nat.gcd a b := Nat.gcd_pos_of_pos_left b (Nat.pos_of_ne_zero ha)
  exact ⟨Nat.gcd a b, gcd_some a b ha hb, Nat.gcd_dvd_left a b, Nat.gcd_dvd_right a b, hpos,
    fun c hca hcb => Nat.le_of_dvd hpos (Nat.dvd_gcd hca hcb)⟩

/-- Witness for C1 at `a = 6`, `b = 4`. -/
theorem gcd_greatest_common_divisor_witness :
    ∃ g : Nat, gcd 6 4 = some g ∧ g ∣ 6 ∧ g ∣ 4 ∧ 1 ≤ g ∧
      ∀ c : Nat, c ∣ 6 → c ∣ 4 → c ≤ g :=
  gcd_greatest_common_divisor 6 4 (by decide) (by decide) (by decide) (by decide)

/-- C2: whenever the program prints a result line with parsed number list
`ns` and final accumulator `d` — obtained by setting `d` to the first
element and then updating `d` to `gcd d m` for each subsequent element `m`
in order — the printed `d` is the greatest common divisor of the entire
list (for input `6 10 15` the printed value is 1, see the witness). -/
theorem main_prints_gcd_of_list (args : List String) (ns : List Nat) (d : Nat)
    (h : main args = MainResult.output ns d) : d = listGcd ns := by
  cases hp : parseArgs args with
  | error k => simp [main, hp] at h
  | ok numbers =>
    cases numbers with
    | nil => simp [main, hp] at h
    | cons d0 rest =>
      cases hf : foldGcd d0 rest with
      | none => simp [main, hp, hf] at h
      | some g =>
        simp [main, hp, hf] at h
        rw [← h.1, ← h.2]
        exact foldGcd_some rest d0 g hf

/-- Witness for C2 on input `["6", "10", "15"]`: the program prints 1 and
1 is the gcd of the whole list. -/
theorem main_prints_gcd_of_list_witness :
    main ["6", "10", "15"] = MainResult.output [6, 10, 15] 1 ∧
      (1 : Nat) = listGcd [6, 10, 15] := by
  have h : main ["6", "10", "15"] = MainResult.output [6, 10, 15] 1 := by
    have hp : parseArgs ["6", "10", "15"] = Except.ok [6, 10, 15] := rfl
    simp [main, hp, foldGcd, gcd_some]
  exact ⟨h, main_prints_gcd_of_list ["6", "10", "15"] [6, 10, 15] 1 h⟩

/-- C3 counterexample: the input list `["0"]` has an element equal to zero,
yet the assertion does not fire — `gcd` is never invoked and the program
prints the result line `[0] is 0` instead of aborting. -/
theorem main_singleton_zero_prints :
    main ["0"] = MainResult.output [0] 0 ∧ main ["0"] ≠ MainResult.assertFailure := by
  decide

/-- C3 (amended): for every input list of at least two parsed numbers in
which any element equals zero, the precondition assertion in `gcd` fires
and the program aborts instead of printing a result; in particular
`["0", "5"]` aborts on the invariant check.  (A zero supplied as the sole
argument does not abort — see the counterexample.) -/
theorem main_zero_element_aborts (args : List String) (ns : List Nat)
    (hp : parseArgs args = Except.ok ns) (hlen : 2 ≤ ns.length) (hmem : 0 ∈ ns) :
    main args = MainResult.assertFailure := by
  cases ns with
  | nil => simp at hlen
  | cons d rest =>
    cases rest with
    | nil => simp at hlen
    | cons m rest' =>
      have hfold : foldGcd d (m :: rest') = none := by
        apply foldGcd_none_of_zero
        rcases List.mem_cons.mp hmem with h | h
        · exact Or.inr ⟨h.symm, by simp⟩
        · exact Or.inl h
      simp [main, hp, hfold]

/-- Witness for C3 (amended) on input `["0", "5"]`. -/
theorem main_zero_element_aborts_witness :
    main ["0", "5"] = MainResult.assertFailure :=
  main_zero_element_aborts ["0", "5"] [0, 5] rfl (by decide) (by decide)

/-- C4 counterexample: on input `["abc"]` the program does terminate with
a fatal error, but its message is the fixed
`error parsing argument: ParseIntError \x7b kind: InvalidDigit \x7d`: the
text `abc` does not occur in it, and the failing argument `"xyz"` produces
the byte-for-byte identical outcome, so the message cannot report which
argument failed. -/
theorem parse_error_message_lacks_argument :
    main ["abc"] = MainResult.parseError
        "error parsing argument: ParseIntError \x7b kind: InvalidDigit \x7d" ∧
      ¬ List.IsInfix "abc".data
        ("error parsing argument: ParseIntError \x7b kind: InvalidDigit \x7d").data ∧
      main ["abc"] = main ["xyz"] := by
  refine ⟨rfl, by decide, rfl⟩

/-- C4 (amended): for every argument list containing an argument that
fails to parse as an unsigned 64-bit integer, the program terminates
immediately at the first failing argument with a fatal error message —
`error parsing argument` followed by the `Debug` form of the parse error,
which reports why parsing failed but not which argument —, produces no
partial results, and processes no further arguments: the outcome is the
same for every `post`.  For input `["abc"]` the message reports an invalid
digit. -/
theorem main_reports_first_parse_failure (pre post : List String) (a : String)
    (k : ParseIntErrorKind) (hpre : ∀ b ∈ pre, ∃ v, parseU64 b = Except.ok v)
    (ha : parseU64 a = Except.error k) :
    main (pre ++ a :: post) = MainResult.parseError (panicMessage k) := by
  have hp := parseArgs_first_failure a post k ha pre hpre
  simp [main, hp]

/-- Witness for C4 (amended) on input `["abc"]`. -/
theorem main_reports_first_parse_failure_witness :
    main ["abc"] = MainResult.parseError (panicMessage ParseIntErrorKind.invalidDigit) :=
  main_reports_first_parse_failure [] [] "abc" ParseIntErrorKind.invalidDigit (by simp) rfl

/-- C5 counterexample: the argument `"+5"` contains a sign character
(a leading `+`), yet `u64::from_str` accepts it and the program prints a
result line instead of terminating with a parse error. -/
theorem parse_accepts_leading_plus :
    parseU64 "+5" = Except.ok 5 ∧ main ["+5"] = MainResult.output [5] 5 :=
  ⟨rfl, rfl⟩

/-- C5 (amended): argument parsing accepts exactly base-10 unsigned 64-bit
integer literals with an optional single leading `+`: every argument string
containing a whitespace character (leading or trailing) or a `-` sign fails
to parse, and supplied as the sole argument it makes the program terminate
with a parse error.  (A leading `+` followed by digits is accepted — see
the counterexample.) -/
theorem parse_rejects_whitespace_and_minus (s : String) (c : Char) (hc : c ∈ s.data)
    (h : c.isWhitespace = true ∨ c = '-') :
    ∃ k : ParseIntErrorKind, parseU64 s = Except.error k ∧
      main [s] = MainResult.parseError (panicMessage k) := by
  have hne : c ≠ '+' := by
    rcases h with h | h
    · intro he
      rw [he] at h
      exact absurd h (by decide)
    · rw [h]
      decide
  have hcd : c.isDigit = false := by
    rcases h with h | h
    · simp only [Char.isWhitespace, Bool.or_eq_true, decide_eq_true_eq] at h
      rcases h with ((h | h) | h) | h <;> rw [h] <;> decide
    · rw [h]
      decide
  have hcs : c ∈ stripPlus s.data := mem_stripPlus c s.data hc hne
  have hsd : s.data ≠ [] := by
    intro he
    rw [he] at hc
    simp at hc
  have hds : stripPlus s.data ≠ [] := by
    intro he
    rw [he] at hcs
    simp at hcs
  cases hpk : parseU64 s with
  | ok v =>
    rw [parseU64, if_neg hsd, if_neg hds] at hpk
    exact absurd hpk (parseLoop_not_ok c hcd (stripPlus s.data) hcs 0 v)
  | error k =>
    refine ⟨k, rfl, ?_⟩
    have hp : parseArgs [s] = Except.error k := by
      simp [parseArgs, hpk]
    simp [main, hp]

/-- Witness for C5 (amended) at `s = "-5"`, `c = '-'`. -/
theorem parse_rejects_whitespace_and_minus_witness :
    ∃ k : ParseIntErrorKind, parseU64 "-5" = Except.error k ∧
      main ["-5"] = MainResult.parseError (panicMessage k) :=
  parse_rejects_whitespace_and_minus "-5" '-' (by decide) (Or.inr rfl)

/-- C6: the program reports the usage error (usage message `Usage: gcd
NUMBER ...` on the error stream, exit status 1, no output line, nothing
computed) exactly when zero arguments are supplied. -/
theorem main_usage_iff_no_args (args : List String) :
    main args = MainResult.usageError ↔ args = [] := by
  constructor
  · intro h
    cases args with
    | nil => rfl
    | cons a rest =>
      cases hu : parseU64 a with
      | error k =>
        have hp : parseArgs (a :: rest) = Except.error k := by simp [parseArgs, hu]
        simp [main, hp] at h
      | ok v =>
        cases hr : parseArgs rest with
        | error k =>
          have hp : parseArgs (a :: rest) = Except.error k := by simp [parseArgs, hu, hr]
          simp [main, hp] at h
        | ok vs =>
          have hp : parseArgs (a :: rest) = Except.ok (v :: vs) := by simp [parseArgs, hu, hr]
          cases hf : foldGcd v vs with
          | none => simp [main, hp, hf] at h
          | some g => simp [main, hp, hf] at h
  · intro h
    rw [h]
    rfl

/-- Witness for C6: the empty argument list yields the usage error. -/
theorem main_usage_iff_no_args_witness :
    main [] = MainResult.usageError :=
  (main_usage_iff_no_args []).mpr rfl

/-- C7: `gcd` is commutative on non-zero unsigned 64-bit operands, and
`gcd a a` returns `a` for any non-zero `a`. -/
theorem gcd_comm_and_self (a b : Nat) (ha : a ≠ 0) (hb : b ≠ 0)
    (ha64 : a < 2 ^ 64) (hb64 : b < 2 ^ 64) :
    gcd a b = gcd b a ∧ gcd a a = some a := by
  constructor
  · rw [gcd_some a b ha hb, gcd_some b a hb ha, Nat.gcd_comm]
  · rw [gcd_some a a ha ha, Nat.gcd_self]

/-- Witness for C7 at `a = 4`, `b = 6`. -/
theorem gcd_comm_and_self_witness :
    gcd 4 6 = gcd 6 4 ∧ gcd 4 4 = some 4 :=
  gcd_comm_and_self 4 6 (by decide) (by decide) (by decide) (by decide)

/-- C8: the left-to-right `gcd` reduction over a non-empty list of non-zero
unsigned 64-bit integers is order-independent: reducing any permutation of
the list yields the same final result. -/
theorem fold_order_independent (d d' : Nat) (rest rest' : List Nat)
    (hperm : List.Perm (d :: rest) (d' :: rest'))
    (hnz : ∀ x ∈ d :: rest, x ≠ 0)
    (h64 : ∀ x ∈ d :: rest, x < 2 ^ 64) :
    foldGcd d rest = foldGcd d' rest' := by
  have hnz' : ∀ x ∈ d' :: rest', x ≠ 0 := fun x hx => hnz x (hperm.mem_iff.mpr hx)
  rw [foldGcd_all_nonzero rest d (hnz d (by simp)) (fun x hx => hnz x (by simp [hx]))]
  rw [foldGcd_all_nonzero rest' d' (hnz' d' (by simp)) (fun x hx => hnz' x (by simp [hx]))]
  rw [listGcd_perm hperm]

/-- Witness for C8: reducing `[6, 10, 15]` and its permutation
`[15, 6, 10]` gives the same result. -/
theorem fold_order_independent_witness :
    foldGcd 6 [10, 15] = foldGcd 15 [6, 10] :=
  fold_order_independent 6 15 [10, 15] [6, 10] (by decide) (by decide) (by decide)

/-- C9: for non-zero unsigned 64-bit operands the loop in `gcd`
terminates: from any loop state `(n, m)` with `n ≠ 0` and the guard
`m ≠ 0`, the second operand after one iteration — `n % m` after a swap when
`m < n`, `m % n` otherwise — is strictly smaller than `m` (the remainder is
always strictly smaller than the divisor), and the embedded `gcd` is total
under the precondition: it returns a value. -/
theorem gcd_loop_terminates (n m : Nat) (hn : n ≠ 0) (hm : m ≠ 0)
    (hn64 : n < 2 ^ 64) (hm64 : m < 2 ^ 64) :
    (gcd n m).isSome = true ∧ (m < n → n % m < m) ∧ (¬ m < n → m % n < m) := by
  refine ⟨?_, fun _ => Nat.mod_lt n (Nat.pos_of_ne_zero hm),
    fun hlt => Nat.lt_of_lt_of_le (Nat.mod_lt m (Nat.pos_of_ne_zero hn)) (Nat.le_of_not_lt hlt)⟩
  rw [gcd_some n m hn hm]
  rfl

/-- Witness for C9 at `n = 6`, `m = 4`. -/
theorem gcd_loop_terminates_witness :
    (gcd 6 4).isSome = true ∧ (4 < 6 → 6 % 4 < 4) ∧ (¬ 4 < 6 → 4 % 6 < 4) :=
  gcd_loop_terminates 6 4 (by decide) (by decide) (by decide) (by decide)

/-- C10: when exactly one argument is supplied and it parses to `n`, the
reduction loop body never runs, so `gcd` is never invoked and the program
prints `n` itself as the greatest common divisor — including `n = 0`, where
the program prints 0 rather than tripping the assertion in `gcd` (see the
witness). -/
theorem main_single_argument_prints_it (a : String) (n : Nat) (h : parseU64 a = Except.ok n) :
    main [a] = MainResult.output [n] n := by
  have hp : parseArgs [a] = Except.ok [n] := by simp [parseArgs, h]
  simp [main, hp, foldGcd]

/-- Witness for C10 at the argument `"0"`: the program prints 0 and does
not abort. -/
theorem main_single_argument_prints_it_witness :
    main ["0"] = MainResult.output [0] 0 :=
  main_single_argument_prints_it "0" 0 rfl

end RustGcd
